import Mathlib

/-!
Shallow embedding of the blessing-image service (`src/render.py`, `src/main.py`):
the weighted-random draw over the item catalog, the recursive traversal that
fills a `BlessingResult`, and the layer-compositing / text-layout pipeline,
together with theorems checking the specification's claims about them.

Modelling conventions:
* Python's `random.randint(1, total)` is modelled by an explicit draw value
  `r` (the traversal takes a stream `rng : Nat → Nat` of draw values indexed
  by draw step), so every statement is universally quantified over the
  randomness.
* The catalog `DRAW_ITEMS`, the lookup tables `BACKGROUND_IMAGE_MAP` /
  `TEXT_IMAGE_MAP` and the color resolver `extract_color_from_name` live in
  the module `draw_data`, which is not part of the two provided source files;
  they are passed as parameters (`items`, association lists, `resolve`).
* A Python function that can raise is embedded with `Option`/`Except`
  (`none`/`error` = an exception escapes); a `try/except` block that logs and
  continues is embedded by its fallback value (the layer is skipped).
* PIL image operations are kept symbolic: the compositor produces the ordered
  list of `Layer` operations applied to the fresh transparent canvas; asset
  files are assumed to load (their bytes are external to the program).
* Python float constants appearing only in integer pixel positions
  (`0.204`, `0.49`, `1 - 0.35`) are modelled as exact decimal fractions with
  truncating division, which agrees with `int(...)` at the configured sizes.
-/

namespace SkyBlessings

/-- One catalog row, mirroring `draw_data.DrawItem` as used by `render.py`:
`id`, `parent_id`, `name`, `weight`, and the kind tag `remark`. -/
structure DrawItem where
  id : String
  parent_id : String
  name : String
  weight : Nat
  remark : String
deriving DecidableEq, Repr

/-- The result record of one draw, mirroring the dataclass
`BlessingResult` in `render.py` (lines 23–32): exactly these seven string
fields, all defaulting to the empty string. -/
structure BlessingResult where
  background_image : String := ""
  text_image : String := ""
  dordas : String := ""
  dordas_color : String := ""
  color_hex : String := ""
  blessing : String := ""
  entry : String := ""
deriving DecidableEq, Repr

/-- The renderer configuration fields read by the embedded code
(`config['image']` in `render.py.__init__`). -/
structure Config where
  width : Nat
  height : Nat
  font_size : Nat
deriving DecidableEq, Repr

/-- Python attribute lookup on a `BlessingResult` value: `some` for the seven
fields the dataclass declares, `none` (an `AttributeError`) for any other
name. -/
def blessingResultField (res : BlessingResult) : String → Option String
  | "background_image" => some res.background_image
  | "text_image" => some res.text_image
  | "dordas" => some res.dordas
  | "dordas_color" => some res.dordas_color
  | "color_hex" => some res.color_hex
  | "blessing" => some res.blessing
  | "entry" => some res.entry
  | _ => none

/-- `BlessingRenderer._get_children`: all catalog items whose `parent_id`
equals the given id, in catalog order. -/
def getChildren (items : List DrawItem) (pid : String) : List DrawItem :=
  items.filter (fun it => it.parent_id == pid)

/-- Total weight `sum(item.weight for item in items)`. -/
def totalWeight (items : List DrawItem) : Nat :=
  (items.map (fun it => it.weight)).sum

/-- Cumulative weight of the first `n` items. -/
def cumWeight (items : List DrawItem) (n : Nat) : Nat :=
  ((items.take n).map (fun it => it.weight)).sum

/-- The scan loop of `_draw_random_item`: running `cumulative` sum, return
the first item with `rand_num <= cumulative`; `none` when the loop falls
through. -/
def drawScan (r : Nat) : List DrawItem → Nat → Option DrawItem
  | [], _ => none
  | it :: rest, cumulative =>
    if r ≤ cumulative + it.weight then some it
    else drawScan r rest (cumulative + it.weight)

/-- `BlessingRenderer._draw_random_item` at draw value `r`: raises
(`none`) on an empty list, otherwise the scan's answer, falling back to the
last item when the scan falls through (`return items[-1]`). -/
def drawRandomItem (items : List DrawItem) (r : Nat) : Option DrawItem :=
  if items.isEmpty then none
  else
    match drawScan r items 0 with
    | some it => some it
    | none => items.getLast?

/-- The `remark`-dispatch of `_draw_sub_items`: route the selected item's
name into the matching result field; `dordascolor` additionally resolves the
hex color via `extract_color_from_name` (the parameter `resolve`). -/
def routeItem (resolve : String → String) (sel : DrawItem) (res : BlessingResult) :
    BlessingResult :=
  if sel.remark = "dordas" then { res with dordas := sel.name }
  else if sel.remark = "dordascolor" then
    { res with dordas_color := sel.name, color_hex := resolve sel.name }
  else if sel.remark = "blessing" then { res with blessing := sel.name }
  else if sel.remark = "entry" then { res with entry := sel.name }
  else res

/-- `BlessingRenderer._draw_sub_items`: from parent `pid`, stop when there
are no children, otherwise select one child by weight (draw value
`rng step`), route its name into the result, and recurse from the selected
node. The returned list records the ids selected along the path (ghost
instrumentation for the no-repeat property); `fuel` bounds the recursion
depth, `none` meaning the Python recursion would not have terminated within
`fuel` steps (or the selector raised). -/
def drawSubItems (items : List DrawItem) (rng : Nat → Nat) (resolve : String → String) :
    Nat → Nat → String → BlessingResult → Option (BlessingResult × List String)
  | 0, _, _, _ => none
  | fuel + 1, step, pid, res =>
    let children := getChildren items pid
    if children.isEmpty then some (res, [])
    else
      match drawRandomItem children (rng step) with
      | none => none
      | some sel =>
        match drawSubItems items rng resolve fuel (step + 1) sel.id (routeItem resolve sel res) with
        | none => none
        | some (res', path) => some (res', sel.id :: path)

/-- Dictionary lookup with default, mirroring Python's `dict.get(key, "")`
on the name→filename tables. -/
def lookupD (m : List (String × String)) (k : String) (dflt : String) : String :=
  match m.lookup k with
  | some v => v
  | none => dflt

/-- The text-image start set of `perform_draw` step 2: children of node
`"0"`, or — only when that set is empty — children of node `"9"`, then
filtered to items tagged `textimg`. -/
def textStartSet (items : List DrawItem) : List DrawItem :=
  let textItems0 := getChildren items "0"
  let textItems1 := if textItems0.isEmpty then getChildren items "9" else textItems0
  textItems1.filter (fun it => it.remark == "textimg")

/-- `BlessingRenderer.perform_draw`: select a background item among the
`backgroundimg`-tagged items (draw value `rng 0`), resolve its filename with
default `""`; select a text-image item from the start set (draw value
`rng 1`), resolve its filename with default `""`; then recursively draw the
sub-items from the selected text item. Returns the final result and the
ghost path of selected sub-item ids; `none` when an exception escapes or the
recursion exceeds `fuel`. -/
def performDraw (items : List DrawItem) (rng : Nat → Nat) (resolve : String → String)
    (bgMap txtMap : List (String × String)) (fuel : Nat) :
    Option (BlessingResult × List String) :=
  let res0 : BlessingResult := {}
  let bgItems := items.filter (fun it => it.remark == "backgroundimg")
  match drawRandomItem bgItems (rng 0) with
  | none => none
  | some bgItem =>
    let res1 := { res0 with background_image := lookupD bgMap bgItem.name "" }
    match drawRandomItem (textStartSet items) (rng 1) with
    | none => none
    | some textItem =>
      let res2 := { res1 with text_image := lookupD txtMap textItem.name "" }
      drawSubItems items rng resolve fuel 2 textItem.id res2

/-- Value of a hex digit character. -/
def hexVal (c : Char) : Nat :=
  if c.isDigit then c.toNat - 48
  else if 'a' ≤ c ∧ c ≤ 'f' then c.toNat - 87
  else c.toNat - 55

/-- Whether `c` is a hexadecimal digit. -/
def isHexDig (c : Char) : Bool :=
  c.isDigit || ('a' ≤ c && c ≤ 'f') || ('A' ≤ c && c ≤ 'F')

/-- Python's `int(s, 16)` on a slice of hex digits: `none` (a `ValueError`)
when the slice is empty or holds a non-hex character. -/
def parseHexNat (cs : List Char) : Option Nat :=
  if cs.isEmpty then none
  else if cs.all isHexDig then some (cs.foldl (fun a c => a * 16 + hexVal c) 0)
  else none

/-- `BlessingRenderer._hex_to_rgba`: strip leading `#`, parse the character
slices `[0:2]`, `[2:4]`, `[4:6]` as hex bytes; `none` when any parse raises
(in particular on the empty string). -/
def hexToRgba (hex : String) (alpha : Nat) : Option (Nat × Nat × Nat × Nat) :=
  let cs := hex.toList.dropWhile (fun c => c = '#')
  match parseHexNat (cs.take 2), parseHexNat ((cs.drop 2).take 2),
      parseHexNat ((cs.drop 4).take 2) with
  | some r, some g, some b => some (r, g, b, alpha)
  | _, _, _ => none

/-- One symbolic compositing operation on the canvas, in the order the code
applies them: the color-tint layer (`_draw_colored_background`), the
decoration overlay (`_draw_background_decoration`), the grade image pasted
at a fixed position with its own alpha as mask (`_draw_text_image`), a
stroke-halo glyph run, and a main text glyph run (`_draw_texts`;
`big` marks the larger blessing font of line index 2). -/
inductive Layer where
  | colorTint : Nat × Nat × Nat × Nat → Layer
  | decoration : String → Layer
  | gradeImage : String → Nat → Nat → Layer
  | strokeText : String → Int → Int → Bool → Layer
  | textLine : String → Int → Int → Bool → Layer
deriving DecidableEq, Repr

/-- Position of a layer kind in the fixed compositing order of
`generate_blessing_image` (tint, then decoration, then grade image, then
text). -/
def layerRank : Layer → Nat
  | .colorTint _ => 0
  | .decoration _ => 1
  | .gradeImage _ _ _ => 2
  | .strokeText _ _ _ _ => 3
  | .textLine _ _ _ _ => 3

/-- Whether a layer is the color tint. -/
def Layer.isTint : Layer → Bool
  | .colorTint _ => true
  | _ => false

/-- Whether a layer is the decoration overlay. -/
def Layer.isDecoration : Layer → Bool
  | .decoration _ => true
  | _ => false

/-- Whether a layer is the grade image. -/
def Layer.isGrade : Layer → Bool
  | .gradeImage _ _ _ => true
  | _ => false

/-- `_draw_colored_background`: paint the solid `color_hex` color (opacity
200) through the template's alpha stencil. The whole body is inside
`try/except`, so a failing hex parse (e.g. the empty string) skips the
layer instead of raising; the template asset is assumed to load. -/
def drawColoredBackground (hex : String) : List Layer :=
  match hexToRgba hex 200 with
  | some rgba => [Layer.colorTint rgba]
  | none => []

/-- The grade image x position `int(self.width * 0.204)`. -/
def gradeX (cfg : Config) : Nat := cfg.width * 204 / 1000

/-- The grade image y position `int(self.height * 0.49)`. -/
def gradeY (cfg : Config) : Nat := cfg.height * 49 / 100

/-- The stroke offsets used for the text halo (both branches of the
`if i == 2` use the same eight offsets). -/
def strokeOffsets : List (Int × Int) :=
  [(-1, -1), (-1, 0), (-1, 1), (0, -1), (0, 1), (1, -1), (1, 0), (1, 1)]

/-- The fixed inter-line spacing table `line_spacings = [20, 60, 85]`. -/
def lineSpacings : List Nat := [20, 60, 85]

/-- The text block x position
`int(self.width * (1 - 0.35)) - margin_right - 133` with `margin_right = 40`. -/
def textAreaX (cfg : Config) : Int :=
  (cfg.width * 65 / 100 : Nat) - 40 - 133

/-- `total_height = self.font_size * 3 + 32 + sum(line_spacings)`. -/
def totalTextHeight (cfg : Config) : Nat :=
  cfg.font_size * 3 + 32 + lineSpacings.sum

/-- `start_y = int((self.height - total_height) / 2) + 29`; Python's
truncating `int()` of the float quotient is `Int.tdiv`. -/
def startY (cfg : Config) : Int :=
  Int.tdiv ((cfg.height : Int) - (totalTextHeight cfg : Int)) 2 + 29

/-- The loop body of `_draw_texts` over the four text slots: an
empty-string line is skipped — and, the `current_y` update sitting inside
`if text:`, its vertical advance is skipped with it; a non-empty line emits
its (optional) stroke halo and its glyph run at the current y, then
advances `current_y` by `(32 if i == 2 else font_size) + line_spacings[i]`
while `i < 3`. -/
def drawTextsGo (fs : Nat) (x : Int) (addStroke : Bool) :
    List String → Nat → Int → List Layer
  | [], _, _ => []
  | t :: rest, i, y =>
    if t = "" then drawTextsGo fs x addStroke rest (i + 1) y
    else
      let big := i == 2
      let strokes :=
        if addStroke then
          strokeOffsets.map (fun o => Layer.strokeText t (x + o.1) (y + o.2) big)
        else []
      let y' :=
        if i < lineSpacings.length then
          y + ((if i == 2 then 32 else fs) + lineSpacings.getD i 0 : Nat)
        else y
      strokes ++ [Layer.textLine t x y big] ++ drawTextsGo fs x addStroke rest (i + 1) y'

/-- `BlessingRenderer._draw_texts`: draw the four result fields
`dordas, dordas_color, blessing, entry` in that order, starting at
`(textAreaX, startY)`. -/
def drawTexts (cfg : Config) (res : BlessingResult) (addStroke : Bool) : List Layer :=
  let texts := [res.dordas, res.dordas_color, res.blessing, res.entry]
  drawTextsGo cfg.font_size (textAreaX cfg) addStroke texts 0 (startY cfg)

/-- The ordered layer list composited by `generate_blessing_image`:
color tint, then the decoration overlay when `background_image` is
non-empty, then the grade image when `text_image` is non-empty, then the
text layers. -/
def renderLayers (cfg : Config) (res : BlessingResult) (addStroke : Bool) : List Layer :=
  drawColoredBackground res.color_hex
    ++ (if res.background_image = "" then [] else [Layer.decoration res.background_image])
    ++ (if res.text_image = "" then []
        else [Layer.gradeImage res.text_image (gradeX cfg) (gradeY cfg)])
    ++ drawTexts cfg res addStroke

/-- The serialized PNG, kept symbolic: canvas dimensions, the initial fill
`(255, 255, 255, 0)` (fully transparent), and the ordered layer
operations. -/
structure RenderedImage where
  width : Nat
  height : Nat
  base : Nat × Nat × Nat × Nat
  layers : List Layer
deriving DecidableEq, Repr

/-- The compositing part of `generate_blessing_image` applied to a draw
result: a fresh transparent canvas of the configured size plus the ordered
layers. -/
def generateImage (cfg : Config) (res : BlessingResult) (addStroke : Bool) :
    RenderedImage :=
  { width := cfg.width, height := cfg.height, base := (255, 255, 255, 0),
    layers := renderLayers cfg res addStroke }

/-- Python attribute reads performed by the debug f-string, in order:
`none` with the first missing attribute's name (the `AttributeError`). -/
def getFields (res : BlessingResult) : List String → Except String (List String)
  | [] => Except.ok []
  | f :: rest =>
    match blessingResultField res f with
    | none => Except.error ("AttributeError: " ++ f)
    | some v =>
      match getFields res rest with
      | Except.error e => Except.error e
      | Except.ok vs => Except.ok (v :: vs)

/-- The attribute names read by the debug print of
`generate_blessing_image`, in source order: `result.text_label` first. -/
def debugFieldNames : List String :=
  ["text_label", "dordas", "dordas_color", "blessing", "entry"]

/-- `BlessingRenderer.generate_blessing_image(debug, add_text_stroke)`:
perform the draw, run the debug print when `debug` (which reads
`result.text_label` and raises `AttributeError`), then composite the
layers. Its Python signature has exactly the two keyword parameters
`debug` and `add_text_stroke`, and it returns the PNG bytes alone. -/
def generateBlessingImage (cfg : Config) (items : List DrawItem) (rng : Nat → Nat)
    (resolve : String → String) (bgMap txtMap : List (String × String))
    (fuel : Nat) (debug addTextStroke : Bool) : Except String RenderedImage :=
  match performDraw items rng resolve bgMap txtMap fuel with
  | none => Except.error "ValueError"
  | some (res, _) =>
    if debug then
      match getFields res debugFieldNames with
      | Except.error e => Except.error e
      | Except.ok _ => Except.ok (generateImage cfg res addTextStroke)
    else Except.ok (generateImage cfg res addTextStroke)

/-- Parameter names of `BlessingRenderer.generate_blessing_image` in
`src/render.py` (besides `self`), in order. -/
def generateBlessingImageParams : List String := ["debug", "add_text_stroke"]

/-- Keyword-argument names used by the `/json` handler of `src/main.py`
when it calls `renderer.generate_blessing_image`. -/
def jsonHandlerKwargs : List String := ["debug", "force_odd"]

/-! ## Helper lemmas about the weighted selector -/

lemma cumWeight_cons (it : DrawItem) (rest : List DrawItem) (n : Nat) :
    cumWeight (it :: rest) (n + 1) = it.weight + cumWeight rest n := by
  simp [cumWeight, List.take_succ_cons]

lemma cumWeight_one (it : DrawItem) (rest : List DrawItem) :
    cumWeight (it :: rest) 1 = it.weight := by
  simp [cumWeight]

lemma totalWeight_cons (it : DrawItem) (rest : List DrawItem) :
    totalWeight (it :: rest) = it.weight + totalWeight rest := by
  simp [totalWeight]

/-- Correctness of the scan loop: starting from accumulator `c` with
`c < r ≤ c + totalWeight`, the loop returns the first item whose
accumulated sum reaches `r`. -/
lemma drawScan_correct (r : Nat) :
    ∀ (items : List DrawItem) (c : Nat), c < r → r ≤ c + totalWeight items →
    ∃ i, ∃ hi : i < items.length,
      drawScan r items c = some (items.get ⟨i, hi⟩) ∧
      r ≤ c + cumWeight items (i + 1) ∧
      ∀ j, j < i → c + cumWeight items (j + 1) < r := by
  intro items
  induction items with
  | nil =>
    intro c hc hr
    simp [totalWeight] at hr
    omega
  | cons it rest ih =>
    intro c hc hr
    by_cases h : r ≤ c + it.weight
    · refine ⟨0, by simp, ?_, ?_, ?_⟩
      · simp [drawScan, h]
      · simpa [cumWeight_one] using h
      · omega
    · have hr' : r ≤ (c + it.weight) + totalWeight rest := by
        rw [totalWeight_cons] at hr; omega
      obtain ⟨i, hi, hscan, hub, hlb⟩ := ih (c + it.weight) (by omega) hr'
      refine ⟨i + 1, by simpa using Nat.succ_lt_succ hi, ?_, ?_, ?_⟩
      · simpa [drawScan, h] using hscan
      · rw [cumWeight_cons]; omega
      · intro j hj
        match j with
        | 0 => rw [cumWeight_one]; omega
        | k + 1 =>
          rw [cumWeight_cons]
          have := hlb k (by omega)
          omega

/-- On a non-empty list the scan's answer is the selector's answer. -/
lemma drawRandomItem_of_scan {items : List DrawItem} {r : Nat} {it : DrawItem}
    (hne : items ≠ []) (h : drawScan r items 0 = some it) :
    drawRandomItem items r = some it := by
  unfold drawRandomItem
  rw [if_neg (by simpa [List.isEmpty_iff] using hne), h]

/-- The scan only returns elements of the list. -/
lemma drawScan_mem {r : Nat} :
    ∀ {items : List DrawItem} {c : Nat} {it : DrawItem},
      drawScan r items c = some it → it ∈ items := by
  intro items
  induction items with
  | nil => intro c it h; simp [drawScan] at h
  | cons hd rest ih =>
    intro c it h
    unfold drawScan at h
    by_cases hc : r ≤ c + hd.weight
    · rw [if_pos hc] at h
      exact (Option.some_inj.mp h) ▸ List.mem_cons_self hd rest
    · rw [if_neg hc] at h
      exact List.mem_cons_of_mem hd (ih h)

/-- On a non-empty list the selector never raises, and its answer is an
element of the list. -/
lemma drawRandomItem_total {items : List DrawItem} (r : Nat) (hne : items ≠ []) :
    ∃ it, drawRandomItem items r = some it ∧ it ∈ items := by
  unfold drawRandomItem
  rw [if_neg (by simpa [List.isEmpty_iff] using hne)]
  cases hscan : drawScan r items 0 with
  | some it => exact ⟨it, rfl, drawScan_mem hscan⟩
  | none =>
    obtain ⟨a, ha⟩ := List.getLast?_isSome.mpr hne |> Option.isSome_iff_exists.mp
    exact ⟨a, ha, List.mem_of_mem_getLast? ha⟩

/-! ## Claim C1 -/

/-- C1: for every non-empty item list with strictly positive weights and
every draw value `r` with `1 ≤ r ≤ totalWeight`, `_draw_random_item`
returns the first item in list order whose cumulative weight reaches `r`
(item `i` owns `(cum i, cum (i+1)]`), and the answer comes from the scan
loop itself (`drawScan … = some _`), so the defensive `items[-1]` fallback
branch is never reached. -/
theorem weighted_selector_first_cumulative (items : List DrawItem) (r : Nat)
    (hne : items ≠ []) (hw : ∀ it ∈ items, 0 < it.weight)
    (hr1 : 1 ≤ r) (hr2 : r ≤ totalWeight items) :
    ∃ i, ∃ hi : i < items.length,
      drawScan r items 0 = some (items.get ⟨i, hi⟩) ∧
      drawRandomItem items r = some (items.get ⟨i, hi⟩) ∧
      r ≤ cumWeight items (i + 1) ∧
      ∀ j, j < i → cumWeight items (j + 1) < r := by
  obtain ⟨i, hi, hscan, hub, hlb⟩ :=
    drawScan_correct r items 0 (by omega) (by simpa using hr2)
  exact ⟨i, hi, hscan, drawRandomItem_of_scan hne hscan,
    by simpa using hub, fun j hj => by simpa using hlb j hj⟩

/-- Witness for C1 at the concrete catalog `[A: weight 1, B: weight 3]`
with draw value `r = 2`: the hypotheses hold and the selector picks `B`
(the first item whose cumulative weight `4 ≥ 2`... `B`'s range is `(1, 4]`). -/
theorem weighted_selector_first_cumulative_witness :
    ([⟨"1", "0", "A", 1, "x"⟩, ⟨"2", "0", "B", 3, "x"⟩] : List DrawItem) ≠ [] ∧
    (∀ it ∈ ([⟨"1", "0", "A", 1, "x"⟩, ⟨"2", "0", "B", 3, "x"⟩] : List DrawItem),
      0 < it.weight) ∧
    (∃ i, ∃ hi : i < ([⟨"1", "0", "A", 1, "x"⟩, ⟨"2", "0", "B", 3, "x"⟩] : List DrawItem).length,
      drawScan 2 [⟨"1", "0", "A", 1, "x"⟩, ⟨"2", "0", "B", 3, "x"⟩] 0 =
        some (([⟨"1", "0", "A", 1, "x"⟩, ⟨"2", "0", "B", 3, "x"⟩] : List DrawItem).get ⟨i, hi⟩) ∧
      drawRandomItem [⟨"1", "0", "A", 1, "x"⟩, ⟨"2", "0", "B", 3, "x"⟩] 2 =
        some (([⟨"1", "0", "A", 1, "x"⟩, ⟨"2", "0", "B", 3, "x"⟩] : List DrawItem).get ⟨i, hi⟩) ∧
      2 ≤ cumWeight [⟨"1", "0", "A", 1, "x"⟩, ⟨"2", "0", "B", 3, "x"⟩] (i + 1) ∧
      ∀ j, j < i → cumWeight [⟨"1", "0", "A", 1, "x"⟩, ⟨"2", "0", "B", 3, "x"⟩] (j + 1) < 2) :=
  ⟨by decide, by decide,
    weighted_selector_first_cumulative
      [⟨"1", "0", "A", 1, "x"⟩, ⟨"2", "0", "B", 3, "x"⟩] 2
      (by decide) (by decide) (by decide) (by decide)⟩

/-! ## Claim C9 -/

/-- C9: on the empty item list `_draw_random_item` raises (modelled as
`none`, the `ValueError` / EmptySelectionError), and on every non-empty
list it never raises (the result is always `some`), whatever the draw
value. -/
theorem selector_empty_raises_nonempty_total (items : List DrawItem) (r : Nat) :
    (items = [] → drawRandomItem items r = none) ∧
    (items ≠ [] → (drawRandomItem items r).isSome) := by
  constructor
  · intro h; subst h; rfl
  · intro hne
    obtain ⟨it, hit, _⟩ := drawRandomItem_total r hne
    simp [hit]

/-- Witness for C9: the empty-list case at `r = 1` and a concrete
non-empty case. -/
theorem selector_empty_raises_nonempty_total_witness :
    drawRandomItem [] 1 = none ∧
    (drawRandomItem [⟨"1", "0", "A", 2, "x"⟩] 1).isSome :=
  ⟨(selector_empty_raises_nonempty_total [] 1).1 rfl,
    (selector_empty_raises_nonempty_total [⟨"1", "0", "A", 2, "x"⟩] 1).2 (by decide)⟩

/-- Unfolding of one traversal step at positive fuel. -/
lemma drawSubItems_succ (items : List DrawItem) (rng : Nat → Nat)
    (resolve : String → String) (fuel step : Nat) (pid : String)
    (res : BlessingResult) :
    drawSubItems items rng resolve (fuel + 1) step pid res =
      if (getChildren items pid).isEmpty then some (res, [])
      else
        match drawRandomItem (getChildren items pid) (rng step) with
        | none => none
        | some sel =>
          Option.map (fun p => (p.1, sel.id :: p.2))
            (drawSubItems items rng resolve fuel (step + 1) sel.id
              (routeItem resolve sel res)) := by
  conv_lhs => rw [drawSubItems]
  by_cases h : (getChildren items pid).isEmpty
  · simp [h]
  · rw [if_neg h, if_neg h]
    cases hsel : drawRandomItem (getChildren items pid) (rng step) with
    | none => rfl
    | some sel =>
      cases hrec : drawSubItems items rng resolve fuel (step + 1) sel.id
          (routeItem resolve sel res) with
      | none => simp [hrec]
      | some p => simp [hrec]

/-! ## Claim C2 -/

/-- C2: one step of the recursive traversal. At a node with no children the
traversal stops with the result unchanged; at a node with at least one
child exactly one child is selected (the selector yields `some`), the
traversal continues from the selected node on the routed result, and
`routeItem` sends the selected name into the field matching its kind tag —
`dordas` into `result.dordas`; `dordascolor` into `result.dordas_color`
together with `result.color_hex` via the color resolver; `blessing` into
`result.blessing`; `entry` into `result.entry`. -/
theorem traversal_selects_and_routes (items : List DrawItem) (rng : Nat → Nat)
    (resolve : String → String) (fuel step : Nat) (pid : String)
    (res : BlessingResult) :
    (getChildren items pid = [] →
      drawSubItems items rng resolve (fuel + 1) step pid res = some (res, [])) ∧
    (getChildren items pid ≠ [] →
      ∃ sel, sel ∈ getChildren items pid ∧
        drawRandomItem (getChildren items pid) (rng step) = some sel ∧
        drawSubItems items rng resolve (fuel + 1) step pid res =
          Option.map (fun p => (p.1, sel.id :: p.2))
            (drawSubItems items rng resolve fuel (step + 1) sel.id
              (routeItem resolve sel res))) ∧
    (∀ sel r,
      (sel.remark = "dordas" → routeItem resolve sel r = { r with dordas := sel.name }) ∧
      (sel.remark = "dordascolor" →
        routeItem resolve sel r =
          { r with dordas_color := sel.name, color_hex := resolve sel.name }) ∧
      (sel.remark = "blessing" → routeItem resolve sel r = { r with blessing := sel.name }) ∧
      (sel.remark = "entry" → routeItem resolve sel r = { r with entry := sel.name })) := by
  refine ⟨?_, ?_, ?_⟩
  · intro h
    rw [drawSubItems_succ, if_pos (by simp [h])]
  · intro hne
    obtain ⟨sel, hsel, hmem⟩ := drawRandomItem_total (rng step) hne
    refine ⟨sel, hmem, hsel, ?_⟩
    rw [drawSubItems_succ, if_neg (by simpa [List.isEmpty_iff] using hne), hsel]
  · intro sel r
    refine ⟨?_, ?_, ?_, ?_⟩ <;> intro h <;> simp [routeItem, h]

/-- Witness for C2 at a two-node catalog: node `"5"` has the single child
`B` (tagged `blessing`), which is selected and routed into
`result.blessing`, and node `"7"` has no children. -/
theorem traversal_selects_and_routes_witness :
    (getChildren [⟨"6", "5", "B", 1, "blessing"⟩] "7" = [] →
      drawSubItems [⟨"6", "5", "B", 1, "blessing"⟩] (fun _ => 1) id 1 0 "7" {} =
        some ({}, [])) ∧
    (getChildren [⟨"6", "5", "B", 1, "blessing"⟩] "5" ≠ [] →
      ∃ sel, sel ∈ getChildren [⟨"6", "5", "B", 1, "blessing"⟩] "5" ∧
        drawRandomItem (getChildren [⟨"6", "5", "B", 1, "blessing"⟩] "5") 1 = some sel ∧
        drawSubItems [⟨"6", "5", "B", 1, "blessing"⟩] (fun _ => 1) id 1 0 "5" {} =
          Option.map (fun p => (p.1, sel.id :: p.2))
            (drawSubItems [⟨"6", "5", "B", 1, "blessing"⟩] (fun _ => 1) id 0 1 sel.id
              (routeItem id sel {}))) :=
  ⟨(traversal_selects_and_routes [⟨"6", "5", "B", 1, "blessing"⟩] (fun _ => 1)
      id 0 0 "7" {}).1,
    (traversal_selects_and_routes [⟨"6", "5", "B", 1, "blessing"⟩] (fun _ => 1)
      id 0 0 "5" {}).2.1⟩

/-! ## Claim C6: termination and no-repeat of the traversal -/

/-- Number of catalog items strictly above `pid` in an acyclicity rank:
the measure that decreases at every traversal step. -/
def rankMeasure (items : List DrawItem) (rank : String → Nat) (pid : String) : Nat :=
  (items.filter (fun it => decide (rank pid < rank it.id))).length

/-- Routing never touches the `text_image` and `background_image` fields. -/
lemma routeItem_preserves (resolve : String → String) (sel : DrawItem)
    (res : BlessingResult) :
    (routeItem resolve sel res).text_image = res.text_image ∧
    (routeItem resolve sel res).background_image = res.background_image := by
  unfold routeItem
  split
  · exact ⟨rfl, rfl⟩
  · split
    · exact ⟨rfl, rfl⟩
    · split
      · exact ⟨rfl, rfl⟩
      · split
        · exact ⟨rfl, rfl⟩
        · exact ⟨rfl, rfl⟩

/-- Stepping from `pid` to a child strictly decreases the rank measure. -/
lemma rankMeasure_lt (items : List DrawItem) (rank : String → Nat)
    {pid : String} {sel : DrawItem} (hmem : sel ∈ items)
    (hstep : rank pid < rank sel.id) :
    rankMeasure items rank sel.id < rankMeasure items rank pid := by
  have hsub : List.Sublist (items.filter (fun it => decide (rank sel.id < rank it.id)))
      (items.filter (fun it => decide (rank pid < rank it.id))) := by
    apply List.monotone_filter_right
    intro a ha
    simp only [decide_eq_true_eq] at ha ⊢
    omega
  apply Nat.lt_of_le_of_ne hsub.length_le
  intro hlen
  have heq := hsub.eq_of_length hlen
  have hq : sel ∈ items.filter (fun it => decide (rank pid < rank it.id)) := by
    simp only [List.mem_filter, decide_eq_true_eq]
    exact ⟨hmem, hstep⟩
  rw [← heq] at hq
  simp only [List.mem_filter, decide_eq_true_eq] at hq
  omega

/-- Members of a filtered children list are items with that parent id. -/
lemma mem_getChildren {items : List DrawItem} {pid : String} {sel : DrawItem}
    (h : sel ∈ getChildren items pid) : sel ∈ items ∧ sel.parent_id = pid := by
  unfold getChildren at h
  rw [List.mem_filter] at h
  exact ⟨h.1, by simpa using h.2⟩

/-- Totality of the traversal under an acyclicity rank: with fuel above the
rank measure the traversal returns a result; every id on the selection path
has rank strictly above the start node's, the path ranks are strictly
increasing (hence the path never repeats a node), and the
`text_image` / `background_image` fields pass through unchanged. -/
lemma drawSubItems_total_aux (items : List DrawItem) (rng : Nat → Nat)
    (resolve : String → String) (rank : String → Nat)
    (hacyc : ∀ it ∈ items, rank it.parent_id < rank it.id) :
    ∀ (fuel : Nat) (pid : String), rankMeasure items rank pid < fuel →
    ∀ (step : Nat) (res : BlessingResult),
    ∃ res' path,
      drawSubItems items rng resolve fuel step pid res = some (res', path) ∧
      (∀ x ∈ path, rank pid < rank x) ∧
      path.Pairwise (fun a b => rank a < rank b) ∧
      res'.text_image = res.text_image ∧
      res'.background_image = res.background_image := by
  intro fuel
  induction fuel with
  | zero => intro pid hlt; omega
  | succ fuel ih =>
    intro pid hlt step res
    by_cases hch : (getChildren items pid).isEmpty
    · refine ⟨res, [], ?_, by simp, by simp, rfl, rfl⟩
      rw [drawSubItems_succ, if_pos hch]
    · have hne : getChildren items pid ≠ [] := by
        simpa [List.isEmpty_iff] using hch
      obtain ⟨sel, hsel, hmem⟩ := drawRandomItem_total (rng step) hne
      obtain ⟨hselitems, hselpar⟩ := mem_getChildren hmem
      have hstep : rank pid < rank sel.id := by
        have := hacyc sel hselitems
        rwa [hselpar] at this
      have hmeas : rankMeasure items rank sel.id < fuel := by
        have := rankMeasure_lt items rank hselitems hstep
        omega
      obtain ⟨res', path', heq, hpath, hpw, hti, hbg⟩ :=
        ih sel.id hmeas (step + 1) (routeItem resolve sel res)
      refine ⟨res', sel.id :: path', ?_, ?_, ?_, ?_, ?_⟩
      · rw [drawSubItems_succ, if_neg hch, hsel]
        simp [heq]
      · intro x hx
        rcases List.mem_cons.mp hx with hx | hx
        · subst hx; exact hstep
        · exact Nat.lt_trans hstep (hpath x hx)
      · exact List.Pairwise.cons (fun b hb => hpath b hb) hpw
      · rw [hti, (routeItem_preserves resolve sel res).1]
      · rw [hbg, (routeItem_preserves resolve sel res).2]

/-- C6: for every catalog that is well formed (non-root parents reference
existing items, weights strictly positive) and acyclic — witnessed by a
rank function that strictly increases from parent to child — the traversal
from any start node terminates within `items.length + 1` recursion steps
(it returns a result instead of running out of fuel) and the path of
selected node ids never repeats a node. -/
theorem traversal_terminates_no_repeat (items : List DrawItem) (rng : Nat → Nat)
    (resolve : String → String) (pid : String) (res : BlessingResult)
    (rank : String → Nat)
    (hacyc : ∀ it ∈ items, rank it.parent_id < rank it.id)
    (hw : ∀ it ∈ items, 0 < it.weight)
    (hwf : ∀ it ∈ items, it.parent_id = "0" ∨ ∃ p ∈ items, p.id = it.parent_id) :
    ∃ res' path,
      drawSubItems items rng resolve (items.length + 1) 0 pid res = some (res', path) ∧
      path.Nodup := by
  have hmeas : rankMeasure items rank pid < items.length + 1 := by
    have := List.length_filter_le (fun it => decide (rank pid < rank it.id)) items
    unfold rankMeasure
    omega
  obtain ⟨res', path, heq, _, hpw, _, _⟩ :=
    drawSubItems_total_aux items rng resolve rank hacyc (items.length + 1) pid hmeas 0 res
  exact ⟨res', path, heq,
    hpw.imp fun h heq' => absurd h (by rw [heq']; exact Nat.lt_irrefl _)⟩

/-- Rank function witnessing acyclicity of the concrete witness catalog. -/
def rankW (s : String) : Nat :=
  if s = "0" then 0 else if s = "1" then 1 else 2

/-- Witness for C6 at the concrete two-level catalog
`A (parent "0") ← B (parent "1")` with the numeric-id rank. -/
theorem traversal_terminates_no_repeat_witness :
    (∀ it ∈ ([⟨"1", "0", "A", 1, "dordas"⟩, ⟨"2", "1", "B", 2, "blessing"⟩] : List DrawItem),
      rankW it.parent_id < rankW it.id) ∧
    (∃ res' path,
      drawSubItems [⟨"1", "0", "A", 1, "dordas"⟩, ⟨"2", "1", "B", 2, "blessing"⟩]
        (fun _ => 1) id
        (([⟨"1", "0", "A", 1, "dordas"⟩, ⟨"2", "1", "B", 2, "blessing"⟩] : List DrawItem).length + 1)
        0 "0" {} = some (res', path) ∧
      path.Nodup) :=
  ⟨by decide,
    traversal_terminates_no_repeat
      [⟨"1", "0", "A", 1, "dordas"⟩, ⟨"2", "1", "B", 2, "blessing"⟩]
      (fun _ => 1) id "0" {} rankW
      (by decide) (by decide)
      (by
        intro it hit
        rcases List.mem_cons.mp hit with h | h
        · subst h; left; rfl
        · rcases List.mem_cons.mp h with h | h
          · subst h
            right
            exact ⟨⟨"1", "0", "A", 1, "dordas"⟩, by simp, rfl⟩
          · simp at h)⟩

/-! ## Helper lemmas about the layer pipeline -/

lemma drawColoredBackground_rank (hex : String) :
    ∀ l ∈ drawColoredBackground hex, layerRank l = 0 := by
  unfold drawColoredBackground
  cases hexToRgba hex 200 with
  | none => simp
  | some rgba => simp [layerRank]

lemma drawTextsGo_rank (fs : Nat) (x : Int) (s : Bool) :
    ∀ (ts : List String) (i : Nat) (y : Int),
      ∀ l ∈ drawTextsGo fs x s ts i y, layerRank l = 3 := by
  intro ts
  induction ts with
  | nil => intro i y l hl; simp [drawTextsGo] at hl
  | cons t rest ih =>
    intro i y l hl
    unfold drawTextsGo at hl
    by_cases ht : t = ""
    · rw [if_pos ht] at hl
      exact ih (i + 1) y l hl
    · rw [if_neg ht] at hl
      simp only [List.mem_append, List.mem_singleton] at hl
      rcases hl with (hl | hl) | hl
      · by_cases hs : s = true
        · simp only [hs, if_pos rfl] at hl
          obtain ⟨o, _, rfl⟩ := List.mem_map.mp hl
          rfl
        · simp only [eq_false_of_ne_true hs] at hl
          simp at hl
      · subst hl; rfl
      · exact ih (i + 1) _ l hl

lemma drawTexts_rank (cfg : Config) (res : BlessingResult) (s : Bool) :
    ∀ l ∈ drawTexts cfg res s, layerRank l = 3 :=
  fun l hl => drawTextsGo_rank cfg.font_size (textAreaX cfg) s _ 0 (startY cfg) l hl

/-- The decoration layers of the composited list are exactly the single
conditional decoration entry. -/
lemma renderLayers_filter_decoration (cfg : Config) (res : BlessingResult) (s : Bool) :
    (renderLayers cfg res s).filter Layer.isDecoration =
      if res.background_image = "" then [] else [Layer.decoration res.background_image] := by
  unfold renderLayers
  rw [List.filter_append, List.filter_append, List.filter_append]
  have h1 : (drawColoredBackground res.color_hex).filter Layer.isDecoration = [] := by
    rw [List.filter_eq_nil_iff]
    intro l hl
    have := drawColoredBackground_rank res.color_hex l hl
    cases l <;> simp_all [layerRank, Layer.isDecoration]
  have h4 : (drawTexts cfg res s).filter Layer.isDecoration = [] := by
    rw [List.filter_eq_nil_iff]
    intro l hl
    have := drawTexts_rank cfg res s l hl
    cases l <;> simp_all [layerRank, Layer.isDecoration]
  rw [h1, h4]
  by_cases hb : res.background_image = "" <;>
    by_cases ht : res.text_image = "" <;>
    simp [hb, ht, Layer.isDecoration]

/-- The grade-image layers of the composited list are exactly the single
conditional grade entry at the fixed fractional position. -/
lemma renderLayers_filter_grade (cfg : Config) (res : BlessingResult) (s : Bool) :
    (renderLayers cfg res s).filter Layer.isGrade =
      if res.text_image = "" then []
      else [Layer.gradeImage res.text_image (gradeX cfg) (gradeY cfg)] := by
  unfold renderLayers
  rw [List.filter_append, List.filter_append, List.filter_append]
  have h1 : (drawColoredBackground res.color_hex).filter Layer.isGrade = [] := by
    rw [List.filter_eq_nil_iff]
    intro l hl
    have := drawColoredBackground_rank res.color_hex l hl
    cases l <;> simp_all [layerRank, Layer.isGrade]
  have h4 : (drawTexts cfg res s).filter Layer.isGrade = [] := by
    rw [List.filter_eq_nil_iff]
    intro l hl
    have := drawTexts_rank cfg res s l hl
    cases l <;> simp_all [layerRank, Layer.isGrade]
  rw [h1, h4]
  by_cases hb : res.background_image = "" <;>
    by_cases ht : res.text_image = "" <;>
    simp [hb, ht, Layer.isGrade]

/-- The tint layers of the composited list come from
`drawColoredBackground` alone. -/
lemma renderLayers_filter_tint (cfg : Config) (res : BlessingResult) (s : Bool) :
    (renderLayers cfg res s).filter Layer.isTint =
      drawColoredBackground res.color_hex := by
  unfold renderLayers
  rw [List.filter_append, List.filter_append, List.filter_append]
  have h1 : (drawColoredBackground res.color_hex).filter Layer.isTint =
      drawColoredBackground res.color_hex := by
    rw [List.filter_eq_self]
    intro l hl
    have := drawColoredBackground_rank res.color_hex l hl
    cases l <;> simp_all [layerRank, Layer.isTint]
  have h4 : (drawTexts cfg res s).filter Layer.isTint = [] := by
    rw [List.filter_eq_nil_iff]
    intro l hl
    have := drawTexts_rank cfg res s l hl
    cases l <;> simp_all [layerRank, Layer.isTint]
  rw [h1, h4]
  by_cases hb : res.background_image = "" <;>
    by_cases ht : res.text_image = "" <;>
    simp [hb, ht, Layer.isTint]

/-- The composited layer list is sorted by the fixed layer order
tint ≺ decoration ≺ grade image ≺ text. -/
lemma renderLayers_sorted (cfg : Config) (res : BlessingResult) (s : Bool) :
    (renderLayers cfg res s).Pairwise (fun a b => layerRank a ≤ layerRank b) := by
  unfold renderLayers
  rw [List.append_assoc, List.append_assoc, List.pairwise_append]
  refine ⟨?_, ?_, ?_⟩
  · unfold drawColoredBackground
    cases hexToRgba res.color_hex 200 <;> simp
  · rw [List.pairwise_append]
    refine ⟨?_, ?_, ?_⟩
    · by_cases hb : res.background_image = "" <;> simp [hb]
    · rw [List.pairwise_append]
      refine ⟨?_, ?_, ?_⟩
      · by_cases ht : res.text_image = "" <;> simp [ht]
      · apply List.pairwise_of_forall_mem_list
        intro a ha b hb
        rw [drawTexts_rank cfg res s a ha, drawTexts_rank cfg res s b hb]
      · intro a ha b hb
        by_cases ht : res.text_image = ""
        · rw [ht] at ha; simp at ha
        · rw [if_neg ht] at ha
          simp only [List.mem_singleton] at ha
          subst ha
          rw [drawTexts_rank cfg res s b hb]
          simp [layerRank]
    · intro a ha b hb
      by_cases hbg : res.background_image = ""
      · rw [hbg] at ha; simp at ha
      · rw [if_neg hbg] at ha
        simp only [List.mem_singleton] at ha
        subst ha
        simp only [List.mem_append] at hb
        rcases hb with hb | hb
        · by_cases ht : res.text_image = ""
          · rw [ht] at hb; simp at hb
          · rw [if_neg ht] at hb
            simp only [List.mem_singleton] at hb
            subst hb
            simp [layerRank]
        · rw [drawTexts_rank cfg res s b hb]
          simp [layerRank]
  · intro a ha b hb
    rw [drawColoredBackground_rank res.color_hex a ha]
    exact Nat.zero_le _

/-! ## Claim C7 -/

/-- C7: rendering starts from a fully transparent canvas of the configured
width and height and composites the layers in the fixed order
tint ≤ decoration ≤ grade ≤ text; the decoration layer appears exactly when
`background_image` is non-empty; the grade image appears exactly when
`text_image` is non-empty, at `x = ⌊0.204·width⌋`, `y = ⌊0.49·height⌋`
(`gradeX`/`gradeY`); the final canvas is the serialized output. -/
theorem render_layer_order_and_canvas (cfg : Config) (res : BlessingResult) (s : Bool) :
    (generateImage cfg res s).width = cfg.width ∧
    (generateImage cfg res s).height = cfg.height ∧
    (generateImage cfg res s).base = (255, 255, 255, 0) ∧
    ((generateImage cfg res s).layers.filter Layer.isDecoration =
      if res.background_image = "" then [] else [Layer.decoration res.background_image]) ∧
    ((generateImage cfg res s).layers.filter Layer.isGrade =
      if res.text_image = "" then []
      else [Layer.gradeImage res.text_image (gradeX cfg) (gradeY cfg)]) ∧
    (generateImage cfg res s).layers.Pairwise (fun a b => layerRank a ≤ layerRank b) :=
  ⟨rfl, rfl, rfl, renderLayers_filter_decoration cfg res s,
    renderLayers_filter_grade cfg res s, renderLayers_sorted cfg res s⟩

/-! ## Claim C8 -/

/-- C8: when `color_hex` is the empty string, `_hex_to_rgba` raises inside
the `try` block of `_draw_colored_background`, so the tint layer is skipped
(no `colorTint` in the output), rendering completes (the compositor is a
total function in the embedding: the exception is caught), and the
remaining layers — decoration, grade image and text — are produced
unchanged. -/
theorem empty_color_hex_skips_tint (cfg : Config) (res : BlessingResult) (s : Bool)
    (h : res.color_hex = "") :
    (generateImage cfg res s).layers.filter Layer.isTint = [] ∧
    (generateImage cfg res s).layers =
      (if res.background_image = "" then [] else [Layer.decoration res.background_image])
        ++ (if res.text_image = "" then []
            else [Layer.gradeImage res.text_image (gradeX cfg) (gradeY cfg)])
        ++ drawTexts cfg res s := by
  have htint : drawColoredBackground res.color_hex = [] := by
    rw [h]
    rfl
  constructor
  · rw [show (generateImage cfg res s).layers = renderLayers cfg res s from rfl,
      renderLayers_filter_tint, htint]
  · show renderLayers cfg res s = _
    unfold renderLayers
    rw [htint, List.nil_append, List.append_assoc]

/-- Witness for C8: a result with an unresolved color name
(`color_hex = ""`) but non-empty decoration, grade and text fields. -/
theorem empty_color_hex_skips_tint_witness :
    ((generateImage ⟨1240, 620, 40⟩
        { background_image := "bg.png", text_image := "daji.png", dordas := "Lotus",
          color_hex := "" } false).layers.filter Layer.isTint = []) ∧
    ((generateImage ⟨1240, 620, 40⟩
        { background_image := "bg.png", text_image := "daji.png", dordas := "Lotus",
          color_hex := "" } false).layers =
      (if ("bg.png" : String) = "" then [] else [Layer.decoration "bg.png"])
        ++ (if ("daji.png" : String) = "" then []
            else [Layer.gradeImage "daji.png" (gradeX ⟨1240, 620, 40⟩) (gradeY ⟨1240, 620, 40⟩)])
        ++ drawTexts ⟨1240, 620, 40⟩
            { background_image := "bg.png", text_image := "daji.png", dordas := "Lotus",
              color_hex := "" } false) :=
  empty_color_hex_skips_tint ⟨1240, 620, 40⟩
    { background_image := "bg.png", text_image := "daji.png", dordas := "Lotus",
      color_hex := "" } false rfl

/-! ## Claim C3 -/

/-- Counterexample to C3: in `_draw_texts` the `current_y` update sits
inside `if text:`, so skipped empty lines do NOT consume their vertical
advance. At the default configuration (width 1240, height 620, font 40) the
per-slot offsets would be 180, 240, 340, 457. The claim's scenario
(`dordas = ""`, `dordas_color = "Azure"`, `blessing = "Good Fortune"`,
`entry = ""`, no stroke) actually renders its two lines at 180 and 280 —
the second drawn line is not at the third computed offset 340 — and the
same "Azure" line moves from 180 to 240 once `dordas` is non-empty, so a
line's y-offset depends on which other fields are empty, not only on its
line index. -/
theorem text_layout_slot_advance_counterexample :
    drawTexts ⟨1240, 620, 40⟩
        { dordas := "", dordas_color := "Azure", blessing := "Good Fortune",
          entry := "" } false =
      [Layer.textLine "Azure" 633 180 false,
        Layer.textLine "Good Fortune" 633 280 true] ∧
    startY ⟨1240, 620, 40⟩ = 180 ∧
    startY ⟨1240, 620, 40⟩ + ((40 + 20) + (40 + 60)) = 340 ∧
    (280 : Int) ≠ 340 ∧
    drawTexts ⟨1240, 620, 40⟩
        { dordas := "X", dordas_color := "Azure", blessing := "Good Fortune",
          entry := "" } false =
      [Layer.textLine "X" 633 180 false, Layer.textLine "Azure" 633 240 false,
        Layer.textLine "Good Fortune" 633 340 true] := by
  refine ⟨by decide, by decide, by decide, by decide, by decide⟩

/-- Unfolding of one `_draw_texts` loop iteration. -/
lemma drawTextsGo_cons (fs : Nat) (x : Int) (st : Bool) (t : String)
    (rest : List String) (i : Nat) (y : Int) :
    drawTextsGo fs x st (t :: rest) i y =
      if t = "" then drawTextsGo fs x st rest (i + 1) y
      else
        (if st then
          strokeOffsets.map (fun o => Layer.strokeText t (x + o.1) (y + o.2) (i == 2))
        else [])
          ++ [Layer.textLine t x y (i == 2)]
          ++ drawTextsGo fs x st rest (i + 1)
              (if i < lineSpacings.length then
                y + ((if i == 2 then 32 else fs) + lineSpacings.getD i 0 : Nat)
              else y) := by
  conv_lhs => rw [drawTextsGo]

/-- C3 as amended: empty-string lines are skipped without being drawn, and
the vertical advance is skipped together with the line (advance accumulates
only over the preceding non-empty lines), so a drawn line's y-offset does
depend on which earlier fields are empty; the claim's scenario renders
exactly two text lines, at the block's first computed y-offset `startY` and
at `startY + font_size + 60` (not at the third per-slot offset). -/
theorem text_layout_amended (fs : Nat) (x : Int) (st : Bool) (t : String)
    (rest : List String) (i : Nat) (y : Int) :
    (t = "" → drawTextsGo fs x st (t :: rest) i y = drawTextsGo fs x st rest (i + 1) y) ∧
    (t ≠ "" → st = false →
      drawTextsGo fs x st (t :: rest) i y =
        Layer.textLine t x y (i == 2) ::
          drawTextsGo fs x st rest (i + 1)
            (if i < lineSpacings.length then
              y + ((if i == 2 then 32 else fs) + lineSpacings.getD i 0 : Nat)
            else y)) ∧
    drawTexts ⟨1240, 620, 40⟩
        { dordas := "", dordas_color := "Azure", blessing := "Good Fortune",
          entry := "" } false =
      [Layer.textLine "Azure" 633 (startY ⟨1240, 620, 40⟩) false,
        Layer.textLine "Good Fortune" 633 (startY ⟨1240, 620, 40⟩ + 40 + 60) true] := by
  refine ⟨?_, ?_, ?_⟩
  · intro ht
    rw [drawTextsGo_cons, if_pos ht]
  · intro ht hst
    subst hst
    rw [drawTextsGo_cons, if_neg ht]
    simp
  · have : startY ⟨1240, 620, 40⟩ = 180 := by decide
    rw [this]
    decide

/-- Witness for C3's amended theorem: the skip law at an empty first line
and the step law at a non-empty first line, both at concrete inputs. -/
theorem text_layout_amended_witness :
    (drawTextsGo 40 633 false ["", "B"] 0 180 = drawTextsGo 40 633 false ["B"] 1 180) ∧
    (drawTextsGo 40 633 false ["A", "B"] 0 180 =
      Layer.textLine "A" 633 180 (0 == 2) ::
        drawTextsGo 40 633 false ["B"] 1
          (if 0 < lineSpacings.length then
            (180 : Int) + ((if 0 == 2 then 32 else 40) + lineSpacings.getD 0 0 : Nat)
          else 180)) :=
  ⟨(text_layout_amended 40 633 false "" ["B"] 0 180).1 rfl,
    (text_layout_amended 40 633 false "A" ["B"] 0 180).2.1 (by decide) rfl⟩

/-! ## Claim C5 -/

/-- Unfolding of `perform_draw` when both selectors succeed. -/
lemma performDraw_eq {items : List DrawItem} {rng : Nat → Nat} {resolve : String → String}
    {bgMap txtMap : List (String × String)} {fuel : Nat} {bgItem ti : DrawItem}
    (h0 : drawRandomItem (items.filter (fun it => it.remark == "backgroundimg")) (rng 0) =
      some bgItem)
    (h1 : drawRandomItem (textStartSet items) (rng 1) = some ti) :
    performDraw items rng resolve bgMap txtMap fuel =
      drawSubItems items rng resolve fuel 2 ti.id
        { background_image := lookupD bgMap bgItem.name "",
          text_image := lookupD txtMap ti.name "" } := by
  simp only [performDraw]
  rw [h0, h1]

/-- C5: the text-image start set is the children of node `"0"`, the
children of node `"9"` being used only when that set is empty, filtered to
`textimg`-tagged items; one item is selected from it and its name resolved
through the text-image table with default `""`; when the table has no entry
for the selected name the draw still completes (no error is raised),
`text_image` is the empty string, and the grade-image layer is skipped in
the rendered output. -/
theorem text_image_start_set_and_missing_entry (cfg : Config) (items : List DrawItem)
    (rng : Nat → Nat) (resolve : String → String) (bgMap txtMap : List (String × String))
    (s : Bool) (rank : String → Nat)
    (hacyc : ∀ it ∈ items, rank it.parent_id < rank it.id)
    (hbg : items.filter (fun it => it.remark == "backgroundimg") ≠ [])
    (hts : textStartSet items ≠ []) :
    (textStartSet items =
      (if (getChildren items "0").isEmpty then getChildren items "9"
      else getChildren items "0").filter (fun it => it.remark == "textimg")) ∧
    ∃ res path ti,
      performDraw items rng resolve bgMap txtMap (items.length + 1) = some (res, path) ∧
      drawRandomItem (textStartSet items) (rng 1) = some ti ∧
      res.text_image = lookupD txtMap ti.name "" ∧
      (txtMap.lookup ti.name = none →
        res.text_image = "" ∧
        (generateImage cfg res s).layers.filter Layer.isGrade = []) := by
  refine ⟨rfl, ?_⟩
  obtain ⟨bgItem, hbgsel, _⟩ := drawRandomItem_total (rng 0) hbg
  obtain ⟨ti, htisel, _⟩ := drawRandomItem_total (rng 1) hts
  have hmeas : rankMeasure items rank ti.id < items.length + 1 := by
    have := List.length_filter_le (fun it => decide (rank ti.id < rank it.id)) items
    unfold rankMeasure
    omega
  obtain ⟨res', path, heq, _, _, hti, _⟩ :=
    drawSubItems_total_aux items rng resolve rank hacyc (items.length + 1) ti.id hmeas 2
      { background_image := lookupD bgMap bgItem.name "",
        text_image := lookupD txtMap ti.name "" }
  refine ⟨res', path, ti, ?_, htisel, hti, ?_⟩
  · rw [performDraw_eq hbgsel htisel]
    exact heq
  · intro hnone
    have hempty : res'.text_image = "" := by
      rw [hti]
      simp [lookupD, hnone]
    refine ⟨hempty, ?_⟩
    rw [show (generateImage cfg res' s).layers = renderLayers cfg res' s from rfl,
      renderLayers_filter_grade, if_pos hempty]

/-- The concrete witness catalog: one background item and one text-image
item, both children of root `"0"`. -/
def itemsW : List DrawItem :=
  [⟨"8", "0", "BG", 1, "backgroundimg"⟩, ⟨"1", "0", "T", 1, "textimg"⟩]

/-- Witness for C5 at `itemsW` with empty lookup tables: the draw
completes, the selected text item `T` has no table entry, `text_image` is
empty and no grade layer is emitted. -/
theorem text_image_start_set_and_missing_entry_witness :
    (∀ it ∈ itemsW, rankW it.parent_id < rankW it.id) ∧
    ((textStartSet itemsW =
      (if (getChildren itemsW "0").isEmpty then getChildren itemsW "9"
      else getChildren itemsW "0").filter (fun it => it.remark == "textimg")) ∧
    ∃ res path ti,
      performDraw itemsW (fun _ => 1) id [] [] (itemsW.length + 1) = some (res, path) ∧
      drawRandomItem (textStartSet itemsW) 1 = some ti ∧
      res.text_image = lookupD [] ti.name "" ∧
      (([] : List (String × String)).lookup ti.name = none →
        res.text_image = "" ∧
        (generateImage ⟨1240, 620, 40⟩ res false).layers.filter Layer.isGrade = [])) :=
  ⟨by decide,
    text_image_start_set_and_missing_entry ⟨1240, 620, 40⟩ itemsW (fun _ => 1) id [] []
      false rankW (by decide) (by decide) (by decide)⟩

/-! ## Claim C10 -/

/-- Attribute lookup for the undeclared name `text_label` fails on every
`BlessingResult`. -/
lemma blessingResultField_text_label (res : BlessingResult) :
    blessingResultField res "text_label" = none := rfl

/-- C10: whenever the draw succeeds, calling the generator with
`debug = True` reads `result.text_label` — a field the `BlessingResult`
dataclass does not define — so the call fails with an `AttributeError`
before any image is produced, while with `debug = False` that read never
happens and the call returns the rendered image. -/
theorem debug_reads_missing_text_label (cfg : Config) (items : List DrawItem)
    (rng : Nat → Nat) (resolve : String → String)
    (bgMap txtMap : List (String × String)) (fuel : Nat) (s : Bool)
    (res : BlessingResult) (path : List String)
    (hdraw : performDraw items rng resolve bgMap txtMap fuel = some (res, path)) :
    generateBlessingImage cfg items rng resolve bgMap txtMap fuel true s =
      Except.error "AttributeError: text_label" ∧
    generateBlessingImage cfg items rng resolve bgMap txtMap fuel false s =
      Except.ok (generateImage cfg res s) := by
  constructor
  · unfold generateBlessingImage
    rw [hdraw]
    simp only [getFields, debugFieldNames, blessingResultField_text_label]
    rfl
  · unfold generateBlessingImage
    rw [hdraw]
    rfl

/-- Witness for C10 at the concrete catalog `itemsW` (whose draw yields the
all-empty result, both lookup tables being empty). -/
theorem debug_reads_missing_text_label_witness :
    generateBlessingImage ⟨1240, 620, 40⟩ itemsW (fun _ => 1) id [] [] 3 true false =
      Except.error "AttributeError: text_label" ∧
    generateBlessingImage ⟨1240, 620, 40⟩ itemsW (fun _ => 1) id [] [] 3 false false =
      Except.ok (generateImage ⟨1240, 620, 40⟩ {} false) :=
  debug_reads_missing_text_label ⟨1240, 620, 40⟩ itemsW (fun _ => 1) id [] [] 3 false
    {} [] (by decide)

/-! ## Claim C4 -/

/-- C4 (code bug): `generate_blessing_image` in `src/render.py` declares
only the parameters `debug` and `add_text_stroke` and returns the PNG bytes
alone, yet the handlers in `src/main.py` pass the keyword argument
`force_odd` (and unpack a `(bytes, result)` pair) — a keyword argument
outside the parameter list, which raises `TypeError` at every call. -/
theorem generate_blessing_image_signature_mismatch :
    "force_odd" ∈ jsonHandlerKwargs ∧ "force_odd" ∉ generateBlessingImageParams := by
  decide

end SkyBlessings
